import Mathlib

/-
  Verification of the scspkg package/modulefile model (src/scspkg/pkg.py).

  Shallow embedding: Python dicts (insertion-ordered) are association lists;
  os.environ is such a dict of strings; functions that can raise return Except.
  Every definition is translated from the source file; definitions whose name
  ends in Spec restate the specification's words for refinement theorems.
-/

namespace Scspkg

/-- A Python dict with string keys, modelled as an insertion-ordered
association list (Python dict keys are unique, updates keep position,
new keys go to the end). -/
abbrev Dict (α : Type) := List (String × α)

/-- Dict lookup: d.get(k) / d[k] when present (first matching key). -/
def dictGet {α : Type} : Dict α → String → Option α
  | [], _ => none
  | p :: rest, k => if p.1 == k then some p.2 else dictGet rest k

/-- Dict assignment d[k] = v: replaces the value of an existing key in
place, else appends the new pair at the end (Python insertion order). -/
def dictSet {α : Type} : Dict α → String → α → Dict α
  | [], k, v => [(k, v)]
  | p :: rest, k, v => if p.1 == k then (k, v) :: rest else p :: dictSet rest k v

/-- Dict deletion del d[k]: removes the entry with key k (keys are unique
in a Python dict, so removing every entry with that key coincides). -/
def dictDel {α : Type} : Dict α → String → Dict α
  | [], _ => []
  | p :: rest, k => if p.1 == k then dictDel rest k else p :: dictDel rest k

/-- os.environ: a dict from variable names to string values. -/
abbrev Env := Dict String

theorem dictGet_dictSet_self {α : Type} (d : Dict α) (k : String) (v : α) :
    dictGet (dictSet d k v) k = some v := by
  induction d with
  | nil => simp [dictSet, dictGet]
  | cons p rest ih =>
    by_cases h : p.1 = k
    · simp [dictSet, dictGet, h]
    · simp [dictSet, dictGet, h, ih]

theorem dictGet_dictSet_ne {α : Type} (d : Dict α) (k k' : String) (v : α)
    (h : k' ≠ k) : dictGet (dictSet d k v) k' = dictGet d k' := by
  induction d with
  | nil => simp [dictSet, dictGet, Ne.symm h]
  | cons p rest ih =>
    by_cases hp : p.1 = k
    · subst hp
      simp [dictSet, dictGet, Ne.symm h]
    · by_cases hp' : p.1 = k'
      · simp [dictSet, dictGet, hp, hp', h]
      · simp [dictSet, dictGet, hp, hp', ih]

theorem dictGet_dictDel_self {α : Type} (d : Dict α) (k : String) :
    dictGet (dictDel d k) k = none := by
  induction d with
  | nil => simp [dictDel, dictGet]
  | cons p rest ih =>
    by_cases h : p.1 = k
    · simpa [dictDel, h] using ih
    · simp [dictDel, dictGet, h, ih]

theorem dictGet_dictDel_ne {α : Type} (d : Dict α) (k k' : String)
    (h : k' ≠ k) : dictGet (dictDel d k) k' = dictGet d k' := by
  induction d with
  | nil => simp [dictDel, dictGet]
  | cons p rest ih =>
    by_cases hp : p.1 = k
    · subst hp
      simp [dictDel, dictGet, Ne.symm h, ih]
    · by_cases hp' : p.1 = k'
      · simp [dictDel, dictGet, hp, hp', h]
      · simp [dictDel, dictGet, hp, hp', ih]

/-- Does the list start with the given pattern (helper for Python
string search used by str.replace and str.endswith). -/
def listStartsWith (l pat : List Char) : Bool :=
  match l, pat with
  | _, [] => true
  | [], _ :: _ => false
  | a :: rest, b :: brest => a == b && listStartsWith rest brest

/-- Worker for Python str.replace with a non-empty pattern: scan left to
right, replacing each non-overlapping occurrence.  The fuel argument is the
length of the scanned list; each step consumes at least one character. -/
def replaceCore (old new : List Char) : Nat → List Char → List Char
  | 0, s => s
  | _ + 1, [] => []
  | fuel + 1, c :: rest =>
    if listStartsWith (c :: rest) old then
      new ++ replaceCore old new fuel ((c :: rest).drop old.length)
    else
      c :: replaceCore old new fuel rest

/-- Python s.replace(old, new): replaces every non-overlapping occurrence of
old scanning left to right; an empty pattern inserts new before every
character and at the end, as Python does. -/
def pyReplace (s old new : String) : String :=
  if old.data.isEmpty then
    String.mk (new.data ++ (s.data.map (fun c => c :: new.data)).flatten)
  else
    String.mk (replaceCore old.data new.data s.data.length s.data)

/-- Python s.strip(given a colon): removes every leading and trailing
colon character. -/
def stripColon (s : String) : String :=
  String.mk (((s.data.dropWhile (fun c => c == ':')).reverse.dropWhile
    (fun c => c == ':')).reverse)

/-- Python s.endswith(suffix), computed on the character lists so that it
evaluates inside the kernel. -/
def strEndsWith (s suf : String) : Bool :=
  listStartsWith s.data.reverse suf.data.reverse

/-- os.path.join for a relative second component, as used throughout
pkg.py (joins with a single slash). -/
def pathJoin (a b : String) : String := a ++ "/" ++ b

/-- The duck-typed string-or-list parameters of pkg.py: the methods begin
with if isinstance(env_data, str): env_data = [env_data]. -/
inductive StrOrList where
  | str (s : String)
  | list (l : List String)
deriving Repr, DecidableEq

/-- Normalization performed by the isinstance check: a lone string becomes
a one-element list. -/
def StrOrList.toList : StrOrList → List String
  | .str s => [s]
  | .list l => l

/-- self.sections of a Package: a dict of sections.  The default skeleton
created by reset_config has keys doc, deps, setenvs and prepends only; the
appends key may be absent, which is why that field is an Option (reading
self.sections with a missing appends key raises KeyError in Python). -/
structure Sections where
  doc : Dict String
  deps : Dict Bool
  setenvs : Dict String
  prepends : Dict (List String)
  appends : Option (Dict (List String))
deriving Repr, DecidableEq

/-- self.mod_load_name = f-string SCSPKG_{name}_LOADED. -/
def mod_load_name (name : String) : String :=
  "SCSPKG_" ++ name ++ "_LOADED"

namespace Package

/-- Package.reset_config: the skeleton configuration built from the package
name and its root directory pkg_root. -/
def reset_config (name pkg_root : String) : Sections :=
  { doc := [("Name", name), ("Version", "None"), ("doc", "None")]
  , deps := []
  , setenvs := []
  , prepends :=
      [ ("PATH", [pathJoin pkg_root "bin", pathJoin pkg_root "sbin"])
      , ("LD_LIBRARY_PATH", [pathJoin pkg_root "lib", pathJoin pkg_root "lib64"])
      , ("LIBRARY_PATH", [pathJoin pkg_root "lib", pathJoin pkg_root "lib64"])
      , ("INCLUDE", [])
      , ("CPATH", [])
      , ("CMAKE_PREFIX_PATH", [pathJoin pkg_root "cmake"])
      , ("PYTHONPATH", [pathJoin pkg_root "bin", pathJoin pkg_root "lib",
                        pathJoin pkg_root "lib64"])
      , ("PKG_CONFIG_PATH", [pathJoin (pathJoin pkg_root "lib") "pkgconfig",
                             pathJoin (pathJoin pkg_root "lib64") "pkgconfig"])
      , ("CFLAGS", [])
      , ("LDFLAGS", []) ]
  , appends := none }

/-- Package.set_env: unconditional assignment into setenvs, then deletion
of the name from prepends when present. -/
def set_env (s : Sections) (env_name env_data : String) : Sections :=
  { s with
    setenvs := dictSet s.setenvs env_name env_data
    prepends :=
      if (dictGet s.prepends env_name).isSome then dictDel s.prepends env_name
      else s.prepends }

/-- Package.prepend_env: normalizes the string-or-list argument, seeds a
missing prepends entry with the empty list, then extends it on the right
with the new fragments. -/
def prepend_env (s : Sections) (env_name : String) (env_data : StrOrList) :
    Sections :=
  let data := env_data.toList
  let pre :=
    if (dictGet s.prepends env_name).isSome then s.prepends
    else dictSet s.prepends env_name []
  { s with prepends := dictSet pre env_name ((dictGet pre env_name).getD [] ++ data) }

/-- Package.append_env: reads self.sections with key appends first, which
raises KeyError when the section is absent; otherwise seeds a missing entry,
then stores env_data ++ existing (the += is on the incoming list). -/
def append_env (s : Sections) (env_name : String) (env_data : StrOrList) :
    Except String Sections :=
  match s.appends with
  | none => .error "KeyError: appends"
  | some ap =>
    let data := env_data.toList
    let ap1 :=
      if (dictGet ap env_name).isSome then ap else dictSet ap env_name []
    let data2 := data ++ (dictGet ap1 env_name).getD []
    .ok { s with appends := some (dictSet ap1 env_name data2) }

/-- Package.rm_env: deletes the name from setenvs and prepends when
present (never from appends). -/
def rm_env (s : Sections) (env_name : String) : Sections :=
  { s with
    setenvs :=
      if (dictGet s.setenvs env_name).isSome then dictDel s.setenvs env_name
      else s.setenvs
    prepends :=
      if (dictGet s.prepends env_name).isSome then dictDel s.prepends env_name
      else s.prepends }

/-- Package.pop_prepend: removes the first occurrence of env_data from the
prepend list of env_name; prints a warning (modelled as a no-op on the
sections) when the variable or the entry is absent. -/
def pop_prepend (s : Sections) (env_name env_data : String) : Sections :=
  match dictGet s.prepends env_name with
  | some prepends =>
    if env_data ∈ prepends then
      { s with prepends := dictSet s.prepends env_name (prepends.erase env_data) }
    else s
  | none => s

/-- Package.add_deps: dict assignment deps[dep] = True for each name. -/
def add_deps (s : Sections) (deps : StrOrList) : Sections :=
  { s with deps := deps.toList.foldl (fun d n => dictSet d n true) s.deps }

/-- Package.pop_deps: guarded deletion from deps for each name (the final
self.save() is file output, outside the section model). -/
def pop_deps (s : Sections) (deps : StrOrList) : Sections :=
  let step := fun (d : Dict Bool) (n : String) =>
    if (dictGet d n).isSome then dictDel d n else d
  { s with deps := deps.toList.foldl step s.deps }

/-- The single-quote character used by the TCL whatis lines. -/
def sq : String := String.singleton (Char.ofNat 39)

/-- Package._save_as_tcl, as the list of lines accumulated by the four
loops of the source (the trailing file write is the excluded I/O). -/
def save_as_tcl_lines (sections : Sections) : List String :=
  let module := ["#%Module1.0"]
  let module := sections.doc.foldl
    (fun m p => m ++ ["module-whatis " ++ sq ++ p.1 ++ ": " ++ p.2 ++ sq]) module
  let module := sections.deps.foldl
    (fun m p => m ++ ["module load " ++ p.1]) module
  let module := sections.setenvs.foldl
    (fun m p => m ++ ["setenv " ++ p.1 ++ " " ++ p.2]) module
  let module := sections.prepends.foldl
    (fun m p => p.2.foldl
      (fun m2 v => m2 ++ ["prepend-path " ++ p.1 ++ " " ++ v]) m) module
  module

/-- Package._save_as_tcl: the text written to the modulefile. -/
def save_as_tcl (sections : Sections) : String :=
  String.intercalate "\n" (save_as_tcl_lines sections)

/-- Modelled from the specification's words for the Dialect-A render (spec
section 4.3): header, then one whatis line per doc entry, one load line per
dependency, one setenv line per setenvs entry, and one prepend-path line per
fragment of each prepends entry with a non-empty fragment sequence, in
insertion order.  Compared against save_as_tcl_lines for refinement. -/
def tclRenderSpec (sections : Sections) : List String :=
  ["#%Module1.0"] ++
  sections.doc.map (fun p => "module-whatis " ++ sq ++ p.1 ++ ": " ++ p.2 ++ sq) ++
  sections.deps.map (fun p => "module load " ++ p.1) ++
  sections.setenvs.map (fun p => "setenv " ++ p.1 ++ " " ++ p.2) ++
  ((sections.prepends.filter (fun p => !p.2.isEmpty)).map
    (fun p => p.2.map (fun v => "prepend-path " ++ p.1 ++ " " ++ v))).flatten

end Package

/-- The ways a load or unload invocation terminates abnormally: the
guarded exit(1) calls, and an uncaught KeyError escaping from a dict
subscript on os.environ. -/
inductive LoadErr where
  | alreadyLoaded (name : String)
  | notLoaded (name : String)
  | keyError (var : String)
deriving Repr, DecidableEq

namespace BashLoader

/-- BashLoader.set_env: the emitted export line. -/
def set_env (env_name env_data : String) : String :=
  "export " ++ env_name ++ "=" ++ env_data

/-- BashLoader.prepend_env: joins the fragments with the path separator and
emits an export placing them before the current runtime value.  The source
subscripts os.environ[env_name] before testing membership, so an absent
variable raises KeyError; the later membership test has a dead else arm,
kept here as in the source. -/
def prepend_env (osenv : Env) (env_name : String) (values : List String) :
    Except LoadErr String :=
  let path_str := String.intercalate ":" values
  match dictGet osenv env_name with
  | none => .error (.keyError env_name)
  | some env_val =>
    if (dictGet osenv env_name).isSome then
      .ok ("export " ++ env_name ++ "=" ++ path_str ++ ":" ++ env_val)
    else
      .ok ("export " ++ env_name ++ "=" ++ path_str)

/-- BashLoader.unset_env: the emitted unset line. -/
def unset_env (env_name : String) : String :=
  "unset " ++ env_name

end BashLoader

namespace ScriptLoader

/-- ScriptLoader.is_loaded: truthiness of os.environ.get(mod_load_name) —
true exactly when the variable is present with a non-empty value. -/
def is_loaded (osenv : Env) (mln : String) : Bool :=
  match dictGet osenv mln with
  | some v => v != ""
  | none => false

/-- The prepends loop of ScriptLoader.module_load: skips entries with an
empty fragment list, emits one prepend line per remaining entry, and
propagates the KeyError that BashLoader.prepend_env may raise. -/
def loadPrepends (osenv : Env) :
    List (String × List String) → Except LoadErr (List String)
  | [] => .ok []
  | p :: rest =>
    if p.2.isEmpty then loadPrepends osenv rest
    else
      match BashLoader.prepend_env osenv p.1 p.2 with
      | .error e => .error e
      | .ok line =>
        match loadPrepends osenv rest with
        | .error e => .error e
        | .ok lines => .ok (line :: lines)

/-- ScriptLoader.module_load for the bash loader: guarded by is_loaded,
then one export per setenvs entry, the prepend lines, and finally the
export marking the module loaded; the lines are joined with newlines.
The load path never mutates os.environ. -/
def module_load (name : String) (sections : Sections) (osenv : Env) :
    Except LoadErr String :=
  if is_loaded osenv (mod_load_name name) then .error (.alreadyLoaded name)
  else
    match loadPrepends osenv sections.prepends with
    | .error e => .error e
    | .ok plines =>
      .ok (String.intercalate "\n"
        (sections.setenvs.map (fun p => BashLoader.set_env p.1 p.2) ++ plines ++
          [BashLoader.set_env (mod_load_name name) "1"]))

/-- The prepends loop of ScriptLoader.module_unload: for each entry with a
non-empty fragment list whose variable is present in os.environ, splices the
joined fragment string out of the runtime value, strips separators, writes
the result back into os.environ and emits the matching export line; absent
variables are skipped.  Returns the emitted lines and the updated
environment. -/
def unloadPrepends (osenv : Env) :
    List (String × List String) → List String × Env
  | [] => ([], osenv)
  | p :: rest =>
    if p.2.isEmpty then unloadPrepends osenv rest
    else
      let path_str := String.intercalate ":" p.2
      match dictGet osenv p.1 with
      | none => unloadPrepends osenv rest
      | some v =>
        let newv := stripColon (pyReplace v path_str "")
        let osenv2 := dictSet osenv p.1 newv
        let r := unloadPrepends osenv2 rest
        (BashLoader.set_env p.1 newv :: r.1, r.2)

/-- ScriptLoader.module_unload for the bash loader: guarded by is_loaded;
then one unset line per setenvs key and the prepend re-assignment lines.
The final self.unset_env(self.mod_load_name) call of the source only
returns a string, which the source discards without appending it, so the
returned script carries no line for the flag.  On the guard failure the
environment is returned unchanged (the process exits before any
mutation). -/
def module_unload (name : String) (sections : Sections) (osenv : Env) :
    Except LoadErr String × Env :=
  if !is_loaded osenv (mod_load_name name) then (.error (.notLoaded name), osenv)
  else
    let uls := sections.setenvs.map (fun p => BashLoader.unset_env p.1)
    let r := unloadPrepends osenv sections.prepends
    let _ := BashLoader.unset_env (mod_load_name name)
    (.ok (String.intercalate "\n" (uls ++ r.1)), r.2)

end ScriptLoader

/-- Modelled from the specification's words for one prepends entry during
unload (spec section 4.4): with non-empty fragments and the variable
present in the runtime environment, one re-assignment whose value is the
runtime value with the joined fragment string removed and separators
trimmed; otherwise no line.  All lookups use the environment as it was when
the unload started. -/
def unloadPrependSpec (osenv : Env) (p : String × List String) : Option String :=
  if p.2.isEmpty then none
  else
    match dictGet osenv p.1 with
    | none => none
    | some v =>
      some (BashLoader.set_env p.1
        (stripColon (pyReplace v (String.intercalate ":" p.2) "")))

/-- The accessor operations quantified over by the invariant claim. -/
inductive Op where
  | setE (n v : String)
  | prependE (n : String) (d : StrOrList)
  | rmE (n : String)
  | popPre (n d : String)
  | addD (d : StrOrList)
  | popD (d : StrOrList)
  | resetC
deriving Repr, DecidableEq

/-- Dispatch of one accessor operation on the sections. -/
def applyOp (name pkg_root : String) (s : Sections) : Op → Sections
  | .setE n v => Package.set_env s n v
  | .prependE n d => Package.prepend_env s n d
  | .rmE n => Package.rm_env s n
  | .popPre n d => Package.pop_prepend s n d
  | .addD d => Package.add_deps s d
  | .popD d => Package.pop_deps s d
  | .resetC => Package.reset_config name pkg_root

/-- A sequence of accessor operations applied in order. -/
def applyOps (name pkg_root : String) (s : Sections) (ops : List Op) : Sections :=
  ops.foldl (applyOp name pkg_root) s

/-- The invariant of spec section 3: no variable name is simultaneously a
setenvs key and a prepends key. -/
def sectionsDisjoint (s : Sections) : Prop :=
  ∀ n, (dictGet s.setenvs n).isSome = true → dictGet s.prepends n = none

theorem dictGet_dictSet {α : Type} (d : Dict α) (k k' : String) (v : α) :
    dictGet (dictSet d k v) k' = if k' = k then some v else dictGet d k' := by
  by_cases h : k' = k
  · subst h; simp [dictGet_dictSet_self]
  · simp [h, dictGet_dictSet_ne _ _ _ _ h]

theorem dictGet_dictDel {α : Type} (d : Dict α) (k k' : String) :
    dictGet (dictDel d k) k' = if k' = k then none else dictGet d k' := by
  by_cases h : k' = k
  · subst h; simp [dictGet_dictDel_self]
  · simp [h, dictGet_dictDel_ne _ _ _ h]

theorem set_env_setenvs_get (s : Sections) (x v n : String) :
    dictGet (Package.set_env s x v).setenvs n =
      if n = x then some v else dictGet s.setenvs n := by
  unfold Package.set_env
  simp [dictGet_dictSet]

theorem set_env_prepends_get (s : Sections) (x v n : String) :
    dictGet (Package.set_env s x v).prepends n =
      if n = x then none else dictGet s.prepends n := by
  unfold Package.set_env
  cases hdg : dictGet s.prepends x with
  | none =>
    by_cases h : n = x
    · subst h; simp [hdg]
    · simp [hdg, h]
  | some l => simp [hdg, dictGet_dictDel]

theorem prepend_env_setenvs (s : Sections) (x : String) (d : StrOrList) :
    (Package.prepend_env s x d).setenvs = s.setenvs := rfl

theorem prepend_env_prepends_get_ne (s : Sections) (x : String) (d : StrOrList)
    (n : String) (h : n ≠ x) :
    dictGet (Package.prepend_env s x d).prepends n = dictGet s.prepends n := by
  unfold Package.prepend_env
  cases hdg : dictGet s.prepends x with
  | none => simp [hdg, dictGet_dictSet, h]
  | some l => simp [hdg, dictGet_dictSet, h]

theorem prepend_env_prepends_get_self (s : Sections) (x : String) (d : StrOrList) :
    dictGet (Package.prepend_env s x d).prepends x =
      some ((dictGet s.prepends x).getD [] ++ d.toList) := by
  unfold Package.prepend_env
  cases hdg : dictGet s.prepends x with
  | none => simp [hdg, dictGet_dictSet]
  | some l => simp [hdg, dictGet_dictSet]

theorem rm_env_setenvs_get (s : Sections) (x n : String) :
    dictGet (Package.rm_env s x).setenvs n =
      if n = x then none else dictGet s.setenvs n := by
  unfold Package.rm_env
  cases hdg : dictGet s.setenvs x with
  | none =>
    by_cases h : n = x
    · subst h; simp [hdg]
    · simp [hdg, h]
  | some w => simp [hdg, dictGet_dictDel]

theorem rm_env_prepends_get (s : Sections) (x n : String) :
    dictGet (Package.rm_env s x).prepends n =
      if n = x then none else dictGet s.prepends n := by
  unfold Package.rm_env
  cases hdg : dictGet s.prepends x with
  | none =>
    by_cases h : n = x
    · subst h; simp [hdg]
    · simp [hdg, h]
  | some w => simp [hdg, dictGet_dictDel]

theorem pop_prepend_setenvs (s : Sections) (x d : String) :
    (Package.pop_prepend s x d).setenvs = s.setenvs := by
  unfold Package.pop_prepend
  cases hdg : dictGet s.prepends x with
  | none => simp [hdg]
  | some pre =>
    simp only [hdg]
    by_cases h : d ∈ pre <;> simp [h]

theorem pop_prepend_prepends_none (s : Sections) (x d n : String)
    (h : dictGet s.prepends n = none) :
    dictGet (Package.pop_prepend s x d).prepends n = none := by
  unfold Package.pop_prepend
  cases hdg : dictGet s.prepends x with
  | none => simp [hdg, h]
  | some pre =>
    simp only [hdg]
    have hnx : n ≠ x := by
      intro he
      rw [he, hdg] at h
      cases h
    by_cases hm : d ∈ pre
    · simp [hm, dictGet_dictSet, hnx, h]
    · simp [hm, h]

theorem add_deps_setenvs (s : Sections) (d : StrOrList) :
    (Package.add_deps s d).setenvs = s.setenvs := rfl

theorem add_deps_prepends (s : Sections) (d : StrOrList) :
    (Package.add_deps s d).prepends = s.prepends := rfl

theorem pop_deps_setenvs (s : Sections) (d : StrOrList) :
    (Package.pop_deps s d).setenvs = s.setenvs := rfl

theorem pop_deps_prepends (s : Sections) (d : StrOrList) :
    (Package.pop_deps s d).prepends = s.prepends := rfl

theorem reset_config_disjoint (name root : String) :
    sectionsDisjoint (Package.reset_config name root) := by
  intro n hn
  simp [Package.reset_config, dictGet] at hn

/-- One append_env call on sections whose appends key exists: succeeds,
the new fragments land in front of the existing entries for that name, and
every other name is untouched. -/
theorem append_env_step (s : Sections) (ap : Dict (List String)) (x : String)
    (d : StrOrList) (h : s.appends = some ap) :
    ∃ ap2, Package.append_env s x d = .ok { s with appends := some ap2 } ∧
      dictGet ap2 x = some (d.toList ++ (dictGet ap x).getD []) ∧
      ∀ n, n ≠ x → dictGet ap2 n = dictGet ap n := by
  unfold Package.append_env
  rw [h]
  cases hdg : dictGet ap x with
  | none =>
    refine ⟨_, rfl, ?_, ?_⟩
    · simp [hdg, dictGet_dictSet]
    · intro n hn; simp [hdg, dictGet_dictSet, hn]
  | some l =>
    refine ⟨_, rfl, ?_, ?_⟩
    · simp [hdg, dictGet_dictSet]
    · intro n hn; simp [hdg, dictGet_dictSet, hn]

/-- C4: for every package state, variable name and value, set_env maps the
name to the value in setenvs, removes any prepends entry for the name, and
leaves every other setenvs and prepends entry unchanged. -/
theorem c4_set_env_spec (s : Sections) (x v : String) :
    dictGet (Package.set_env s x v).setenvs x = some v ∧
    dictGet (Package.set_env s x v).prepends x = none ∧
    ∀ y, y ≠ x →
      dictGet (Package.set_env s x v).setenvs y = dictGet s.setenvs y ∧
      dictGet (Package.set_env s x v).prepends y = dictGet s.prepends y := by
  refine ⟨?_, ?_, ?_⟩
  · simp [set_env_setenvs_get]
  · simp [set_env_prepends_get]
  · intro y hy
    simp [set_env_setenvs_get, set_env_prepends_get, hy]

/-- Witness for C4 at a concrete state: setting X drops its prepends entry
and leaves the LD_LIBRARY_PATH entry alone. -/
theorem c4_witness :
    dictGet (Package.set_env (Package.reset_config "foo" "/r/foo") "PATH"
      "/p").setenvs "PATH" = some "/p" ∧
    dictGet (Package.set_env (Package.reset_config "foo" "/r/foo") "PATH"
      "/p").prepends "PATH" = none ∧
    dictGet (Package.set_env (Package.reset_config "foo" "/r/foo") "PATH"
      "/p").prepends "LD_LIBRARY_PATH" =
      dictGet (Package.reset_config "foo" "/r/foo").prepends
        "LD_LIBRARY_PATH" := by
  obtain ⟨h1, h2, h3⟩ :=
    c4_set_env_spec (Package.reset_config "foo" "/r/foo") "PATH" "/p"
  exact ⟨h1, h2, (h3 "LD_LIBRARY_PATH" (by decide)).2⟩

/-- C6 counterexample: starting from the default skeleton, which already
holds two PATH fragments, two prepend_env calls on PATH do not leave
prepends PATH equal to the two new fragments alone. -/
theorem c6_counterexample :
    dictGet (Package.prepend_env (Package.prepend_env
      (Package.reset_config "foo" "/r/foo") "PATH" (.list ["/a"])) "PATH"
      (.list ["/b"])).prepends "PATH" ≠ some ["/a", "/b"] := by decide

/-- C6 amended: prepend_env treats a lone string as a one-element list,
and two calls with fragments a then b leave the entry equal to the prior
fragments followed by a then b; the entry equals exactly those two
fragments when the name was previously absent or empty. -/
theorem c6_prepend_env_amended (s : Sections) (x a b : String) :
    Package.prepend_env s x (.str a) = Package.prepend_env s x (.list [a]) ∧
    dictGet (Package.prepend_env (Package.prepend_env s x (.list [a])) x
      (.list [b])).prepends x =
      some ((dictGet s.prepends x).getD [] ++ [a, b]) := by
  refine ⟨rfl, ?_⟩
  rw [prepend_env_prepends_get_self, prepend_env_prepends_get_self]
  simp [StrOrList.toList]

/-- C7 counterexample: on the freshly-reset skeleton, which has no appends
section, append_env raises KeyError instead of succeeding. -/
theorem c7_counterexample :
    Package.append_env (Package.reset_config "foo" "/r/foo") "X" (.str "/v") =
      .error "KeyError: appends" := rfl

/-- C7 amended: for every package whose sections are the freshly-reset
default skeleton and for every variable name and value, append_env fails
with a KeyError on the missing appends section; it never reaches the code
that initializes the entry. -/
theorem c7_append_env_skeleton (name root x : String) (d : StrOrList) :
    Package.append_env (Package.reset_config name root) x d =
      .error "KeyError: appends" := rfl

/-- A concrete sections value whose appends section exists and is empty. -/
def c8Sections : Sections :=
  { doc := [], deps := [], setenvs := [], prepends := [], appends := some [] }

/-- C8 counterexample: with the appends section present, appendEnv x [a]
then appendEnv x [b] stores [b, a], not [a, b]. -/
theorem c8_counterexample :
    ((Package.append_env c8Sections "x" (.list ["a"])).bind
      (fun s1 => Package.append_env s1 "x" (.list ["b"]))).map
      (fun s2 => s2.appends) = .ok (some [("x", ["b", "a"])]) ∧
    (["b", "a"] : List String) ≠ ["a", "b"] := ⟨rfl, by decide⟩

/-- C8 amended: for every state whose appends section exists, appendEnv x
[a] followed by appendEnv x [b] yields appends x equal to [b, a] followed
by the prior entries — new fragments are inserted before the existing
ones, not after them. -/
theorem c8_append_env_amended (s : Sections) (ap : Dict (List String))
    (x a b : String) (h : s.appends = some ap) :
    ∃ s2, (Package.append_env s x (.list [a])).bind
        (fun s1 => Package.append_env s1 x (.list [b])) = .ok s2 ∧
      ∃ ap2, s2.appends = some ap2 ∧
        dictGet ap2 x = some ([b, a] ++ (dictGet ap x).getD []) := by
  obtain ⟨ap1, h1, hg1, _⟩ := append_env_step s ap x (.list [a]) h
  obtain ⟨ap2, h2, hg2, _⟩ :=
    append_env_step { s with appends := some ap1 } ap1 x (.list [b]) rfl
  refine ⟨{ s with appends := some ap2 }, ?_, ap2, rfl, ?_⟩
  · rw [h1]
    exact h2
  · rw [hg2, hg1]
    simp [StrOrList.toList]

/-- Witness for C8 at the concrete empty-appends state. -/
theorem c8_witness :
    ∃ s2, (Package.append_env c8Sections "x" (.list ["a"])).bind
        (fun s1 => Package.append_env s1 "x" (.list ["b"])) = .ok s2 ∧
      ∃ ap2, s2.appends = some ap2 ∧ dictGet ap2 "x" = some ["b", "a"] := by
  obtain ⟨s2, h1, ap2, h2, h3⟩ :=
    c8_append_env_amended c8Sections [] "x" "a" "b" rfl
  exact ⟨s2, h1, ap2, h2, by simpa using h3⟩

/-- The side condition under which one accessor operation keeps the
setenvs/prepends disjointness: prepend_env must not target a name that is
currently a setenvs key (the source never checks this); every other
operation is unconditional. -/
def opGuard (s : Sections) : Op → Prop
  | .prependE n _ => dictGet s.setenvs n = none
  | _ => True

/-- The guard holding along a whole operation sequence. -/
def guardedSeq (name root : String) : Sections → List Op → Prop
  | _, [] => True
  | s, op :: rest =>
    opGuard s op ∧ guardedSeq name root (applyOp name root s op) rest

theorem applyOp_disjoint (name root : String) (s : Sections) (op : Op)
    (h : sectionsDisjoint s) (hg : opGuard s op) :
    sectionsDisjoint (applyOp name root s op) := by
  cases op with
  | setE n v =>
    intro m hm
    simp only [applyOp] at hm ⊢
    rw [set_env_setenvs_get] at hm
    rw [set_env_prepends_get]
    by_cases hmn : m = n
    · simp [hmn]
    · simp only [if_neg hmn] at hm ⊢
      exact h m hm
  | prependE n d =>
    intro m hm
    simp only [applyOp] at hm ⊢
    rw [prepend_env_setenvs] at hm
    have hmn : m ≠ n := by
      intro he
      subst he
      rw [hg] at hm
      cases hm
    rw [prepend_env_prepends_get_ne _ _ _ _ hmn]
    exact h m hm
  | rmE n =>
    intro m hm
    simp only [applyOp] at hm ⊢
    rw [rm_env_setenvs_get] at hm
    rw [rm_env_prepends_get]
    by_cases hmn : m = n
    · simp [hmn]
    · simp only [if_neg hmn] at hm ⊢
      exact h m hm
  | popPre n d =>
    intro m hm
    simp only [applyOp] at hm ⊢
    rw [pop_prepend_setenvs] at hm
    exact pop_prepend_prepends_none s n d m (h m hm)
  | addD d =>
    intro m hm
    simp only [applyOp] at hm ⊢
    rw [add_deps_setenvs] at hm
    rw [add_deps_prepends]
    exact h m hm
  | popD d =>
    intro m hm
    simp only [applyOp] at hm ⊢
    rw [pop_deps_setenvs] at hm
    rw [pop_deps_prepends]
    exact h m hm
  | resetC =>
    simp only [applyOp]
    exact reset_config_disjoint name root

theorem applyOps_disjoint (name root : String) :
    ∀ (ops : List Op) (s : Sections), sectionsDisjoint s →
      guardedSeq name root s ops →
      sectionsDisjoint (applyOps name root s ops) := by
  intro ops
  induction ops with
  | nil => intro s hs _; exact hs
  | cons op rest ih =>
    intro s hs hg
    exact ih _ (applyOp_disjoint name root s op hs hg.1) hg.2

/-- C5 counterexample: from the default skeleton, set_env on PATH followed
by prepend_env on PATH leaves PATH a key of both setenvs and prepends, so
the claimed invariant is not preserved by every operation sequence. -/
theorem c5_counterexample :
    ¬ sectionsDisjoint (applyOps "foo" "/r/foo"
      (Package.reset_config "foo" "/r/foo")
      [.setE "PATH" "/p", .prependE "PATH" (.str "/q")]) := by
  intro hdisj
  have h1 := hdisj "PATH" (by decide)
  exact absurd h1 (by decide)

/-- C5 amended: starting from the default skeleton, every sequence of the
accessor operations in which prepend_env is never applied to a name that is
currently a setenvs key preserves the disjointness of the setenvs and
prepends keys. -/
theorem c5_invariant_amended (name root : String) (ops : List Op)
    (hg : guardedSeq name root (Package.reset_config name root) ops) :
    sectionsDisjoint (applyOps name root
      (Package.reset_config name root) ops) :=
  applyOps_disjoint name root ops _ (reset_config_disjoint name root) hg

/-- Witness for C5 on a concrete guarded sequence. -/
theorem c5_witness :
    sectionsDisjoint (applyOps "foo" "/r/foo"
      (Package.reset_config "foo" "/r/foo")
      [.prependE "FOO" (.str "/a"), .setE "FOO" "1"]) := by
  refine c5_invariant_amended "foo" "/r/foo" _ ?_
  exact ⟨show dictGet (Package.reset_config "foo" "/r/foo").setenvs "FOO" =
    none by decide, trivial, trivial⟩

theorem foldl_append_singleton {α : Type} (f : α → String) :
    ∀ (l : List α) (init : List String),
      l.foldl (fun m x => m ++ [f x]) init = init ++ l.map f := by
  intro l
  induction l with
  | nil => intro init; simp
  | cons x rest ih => intro init; simp [ih]

theorem foldl_prepend_acc :
    ∀ (l : List (String × List String)) (init : List String),
      l.foldl (fun m p => p.2.foldl
        (fun m2 v => m2 ++ ["prepend-path " ++ p.1 ++ " " ++ v]) m) init =
      init ++ (l.map (fun p => p.2.map
        (fun v => "prepend-path " ++ p.1 ++ " " ++ v))).flatten := by
  intro l
  induction l with
  | nil => intro init; simp
  | cons p rest ih =>
    intro init
    rw [List.foldl_cons, ih,
      foldl_append_singleton (fun v => "prepend-path " ++ p.1 ++ " " ++ v)
        p.2 init]
    simp

theorem prepend_spec_filter (l : List (String × List String)) :
    ((l.filter (fun p => !p.2.isEmpty)).map (fun p => p.2.map
      (fun v => "prepend-path " ++ p.1 ++ " " ++ v))).flatten =
    (l.map (fun p => p.2.map
      (fun v => "prepend-path " ++ p.1 ++ " " ++ v))).flatten := by
  induction l with
  | nil => rfl
  | cons p rest ih =>
    by_cases h : p.2.isEmpty
    · have h2 : p.2 = [] := by simpa using h
      simp [List.filter_cons, h, h2, ih]
    · simp [List.filter_cons, h, ih]

/-- C9: the TCL static render is deterministic and consists exactly of the
header, the whatis lines in doc insertion order, the load lines in deps
insertion order, the setenv lines, and one prepend-path line per fragment
of each prepends entry with non-empty fragments, variables in insertion
order — the fold-based source render equals the specification-side
description (entries with empty fragment lists contribute no lines). -/
theorem c9_tcl_render (sections : Sections) :
    Package.save_as_tcl_lines sections = Package.tclRenderSpec sections := by
  simp only [Package.save_as_tcl_lines, Package.tclRenderSpec]
  rw [foldl_append_singleton
        (fun p => "module-whatis " ++ Package.sq ++ p.1 ++ ": " ++ p.2 ++
          Package.sq) sections.doc,
      foldl_append_singleton (fun p => "module load " ++ p.1) sections.deps,
      foldl_append_singleton (fun p => "setenv " ++ p.1 ++ " " ++ p.2)
        sections.setenvs,
      foldl_prepend_acc, prepend_spec_filter]

/-- A sections value with no setenvs and no prepends entries. -/
def emptySections : Sections :=
  { doc := [], deps := [], setenvs := [], prepends := [], appends := none }

/-- C1 counterexample: with the ModuleLoadFlag present in the environment
but holding the empty string, is_loaded is false (os.environ.get truthiness)
and module_load succeeds instead of failing. -/
theorem c1_counterexample :
    (dictGet [(mod_load_name "foo", "")] (mod_load_name "foo")).isSome = true ∧
    ScriptLoader.module_load "foo" emptySections [(mod_load_name "foo", "")] =
      .ok "export SCSPKG_foo_LOADED=1" := ⟨rfl, rfl⟩

/-- C1 amended: module_load called when the ModuleLoadFlag is present with a
non-empty value fails with already-loaded and returns no script, and
module_unload called when the flag is absent fails with not-loaded, returns
no script and leaves the environment unchanged (the error carries no
script; module_load never mutates the environment, and module_unload
returns the input environment untouched on the guard failure). -/
theorem c1_guard_amended (name : String) (s : Sections) (e : Env) :
    ((∃ v, dictGet e (mod_load_name name) = some v ∧ v ≠ "") →
      ScriptLoader.module_load name s e = .error (.alreadyLoaded name)) ∧
    (dictGet e (mod_load_name name) = none →
      ScriptLoader.module_unload name s e = (.error (.notLoaded name), e)) := by
  constructor
  · rintro ⟨v, hv, hne⟩
    have hl : ScriptLoader.is_loaded e (mod_load_name name) = true := by
      simp [ScriptLoader.is_loaded, hv, hne]
    simp [ScriptLoader.module_load, hl]
  · intro h
    have hl : ScriptLoader.is_loaded e (mod_load_name name) = false := by
      simp [ScriptLoader.is_loaded, h]
    simp [ScriptLoader.module_unload, hl]

/-- Witness for C1 at concrete inputs. -/
theorem c1_witness :
    ScriptLoader.module_load "foo" emptySections
      [(mod_load_name "foo", "1")] = .error (.alreadyLoaded "foo") ∧
    ScriptLoader.module_unload "foo" emptySections [] =
      (.error (.notLoaded "foo"), []) := by
  constructor
  · exact (c1_guard_amended "foo" emptySections _).1 ⟨"1", rfl, by decide⟩
  · exact (c1_guard_amended "foo" emptySections _).2 rfl

/-- A loaded package with one setenvs entry and no prepends. -/
def c2Sections : Sections :=
  { doc := [], deps := [], setenvs := [("A", "1")], prepends := [],
    appends := none }

/-- C2: for the loaded package above, the unload script is exactly the one
unset line for the setenvs key and does not end with a line unsetting the
ModuleLoadFlag — the source computes self.unset_env(self.mod_load_name) but
discards its return value instead of appending it to the script. -/
theorem c2_unload_flag_not_unset :
    ScriptLoader.module_unload "foo" c2Sections [(mod_load_name "foo", "1")] =
      (.ok "unset A", [(mod_load_name "foo", "1")]) ∧
    strEndsWith "unset A" (BashLoader.unset_env (mod_load_name "foo")) =
      false := ⟨rfl, rfl⟩

/-- An unloaded package with one prepends entry for a variable X. -/
def c3Sections : Sections :=
  { doc := [], deps := [], setenvs := [], prepends := [("X", ["/a"])],
    appends := none }

/-- C3: module_load on an environment in which the prepended variable X is
entirely absent raises KeyError instead of emitting a prepend line —
BashLoader.prepend_env subscripts os.environ before its membership check. -/
theorem c3_load_keyerror :
    ScriptLoader.module_load "foo" c3Sections [] =
      .error (.keyError "X") := rfl

theorem unloadPrepends_fst :
    ∀ (l : List (String × List String)) (e0 e : Env),
      (l.map Prod.fst).Nodup →
      (∀ k, k ∈ l.map Prod.fst → dictGet e0 k = dictGet e k) →
      (ScriptLoader.unloadPrepends e0 l).1 =
        l.filterMap (unloadPrependSpec e) := by
  intro l
  induction l with
  | nil => intro e0 e _ _; rfl
  | cons p rest ih =>
    intro e0 e hnd hagree
    rw [List.map_cons, List.nodup_cons] at hnd
    have hk : dictGet e0 p.1 = dictGet e p.1 := hagree p.1 (by simp)
    have hrest : ∀ k, k ∈ rest.map Prod.fst → dictGet e0 k = dictGet e k :=
      fun k hkin => hagree k (by simp [hkin])
    by_cases hemp : p.2.isEmpty
    · have h1 : (ScriptLoader.unloadPrepends e0 (p :: rest)).1 =
          (ScriptLoader.unloadPrepends e0 rest).1 := by
        simp [ScriptLoader.unloadPrepends, hemp]
      have h2 : List.filterMap (unloadPrependSpec e) (p :: rest) =
          List.filterMap (unloadPrependSpec e) rest := by
        simp [List.filterMap_cons, unloadPrependSpec, hemp]
      rw [h1, h2]
      exact ih e0 e hnd.2 hrest
    · cases hv : dictGet e0 p.1 with
      | none =>
        have he : dictGet e p.1 = none := hk.symm.trans hv
        have h1 : (ScriptLoader.unloadPrepends e0 (p :: rest)).1 =
            (ScriptLoader.unloadPrepends e0 rest).1 := by
          simp [ScriptLoader.unloadPrepends, hemp, hv]
        have h2 : List.filterMap (unloadPrependSpec e) (p :: rest) =
            List.filterMap (unloadPrependSpec e) rest := by
          simp [List.filterMap_cons, unloadPrependSpec, hemp, he]
        rw [h1, h2]
        exact ih e0 e hnd.2 hrest
      | some v =>
        have he : dictGet e p.1 = some v := hk.symm.trans hv
        have h1 : (ScriptLoader.unloadPrepends e0 (p :: rest)).1 =
            BashLoader.set_env p.1
              (stripColon (pyReplace v (String.intercalate ":" p.2) "")) ::
            (ScriptLoader.unloadPrepends (dictSet e0 p.1
              (stripColon (pyReplace v (String.intercalate ":" p.2) "")))
              rest).1 := by
          simp [ScriptLoader.unloadPrepends, hemp, hv]
        have h2 : List.filterMap (unloadPrependSpec e) (p :: rest) =
            BashLoader.set_env p.1
              (stripColon (pyReplace v (String.intercalate ":" p.2) "")) ::
            List.filterMap (unloadPrependSpec e) rest := by
          simp [List.filterMap_cons, unloadPrependSpec, hemp, he]
        rw [h1, h2]
        congr 1
        apply ih
        · exact hnd.2
        · intro k hkin
          have hkp : k ≠ p.1 := fun he2 => hnd.1 (he2 ▸ hkin)
          rw [dictGet_dictSet_ne _ _ _ _ hkp]
          exact hrest k hkin

/-- C10: for every loaded package whose prepends keys are distinct (a
Python dict guarantee), module_unload succeeds and its script is the unset
lines for the setenvs keys followed by exactly one re-assignment line per
prepends entry with non-empty fragments whose variable is present in the
runtime environment — the emitted value being the runtime value with the
joined fragment string removed and leading and trailing separators
trimmed — while entries with absent variables contribute no line. -/
theorem c10_unload_reassign (name : String) (s : Sections) (e : Env)
    (hl : ScriptLoader.is_loaded e (mod_load_name name) = true)
    (hn : (s.prepends.map Prod.fst).Nodup) :
    ∃ e2, ScriptLoader.module_unload name s e =
      (.ok (String.intercalate "\n"
        (s.setenvs.map (fun p => BashLoader.unset_env p.1) ++
          s.prepends.filterMap (unloadPrependSpec e))), e2) := by
  refine ⟨(ScriptLoader.unloadPrepends e s.prepends).2, ?_⟩
  simp only [ScriptLoader.module_unload, hl, Bool.not_true, Bool.false_eq_true,
    if_false]
  rw [unloadPrepends_fst s.prepends e e hn (fun k _ => rfl)]

/-- The PATH example package of the specification. -/
def c10Sections : Sections :=
  { doc := [], deps := [], setenvs := [], prepends := [("PATH", ["/x/bin"])],
    appends := none }

/-- The runtime environment of the PATH example: loaded flag set and
PATH=/x/bin:/usr/bin. -/
def c10Env : Env :=
  [("SCSPKG_foo_LOADED", "1"), ("PATH", "/x/bin:/usr/bin")]

/-- Witness for C10: unloading with runtime PATH=/x/bin:/usr/bin emits
exactly export PATH=/usr/bin, separator-trimmed. -/
theorem c10_witness :
    ∃ e2, ScriptLoader.module_unload "foo" c10Sections c10Env =
      (.ok "export PATH=/usr/bin", e2) := by
  obtain ⟨e2, h⟩ := c10_unload_reassign "foo" c10Sections c10Env rfl (by decide)
  exact ⟨e2, by rw [h]; rfl⟩

end Scspkg
